import Mathlib

/-!
Verification of the yearbird authorization and cloud-configuration subsystem.

This file gives a shallow embedding, in Lean, of the parts of the source that
the specification talks about:

* `src/services/auth.ts` — the pending-verifier (state correlation) store,
  popup lifecycle tracking, the token-client callback, sign-in, the Drive
  scope-escalation callback, and session-token storage;
* `src/services/categories.ts` — keyword normalization, category
  sanitization (cloud set-all path) and local category creation/update;
* the remote config store (`driveSync.ts`, whose implementation is not part
  of the source tree; its retry policy and validator are modelled from the
  specification and exercised against the behaviours its test suite pins down).

JavaScript strings are modelled through their character lists (`jsTrim`,
`jsToLower`, `strIncludes` mirror `String.prototype.trim`, `toLowerCase`
and `includes`); JavaScript numbers are modelled by `JSNum`, a rational
together with the non-finite values `NaN` and the two infinities; truthiness
of an optional string mirrors the source (`undefined`/`null`/empty are falsy).
-/

/-! ## JavaScript value helpers -/

/-- A JavaScript number: either a finite value (modelled as a rational) or one
of the non-finite values. -/
inductive JSNum where
  | nan
  | posInf
  | negInf
  | num (q : ℚ)
deriving DecidableEq, Repr

/-- `Number.isFinite`. -/
def JSNum.isFinite : JSNum → Bool
  | .num _ => true
  | _ => false

/-- Truthiness of a `string | null | undefined` value: only a present,
non-empty string is truthy. -/
def jsTruthyStr : Option String → Bool
  | none => false
  | some s => !(s == "")

/-- `String.prototype.toLowerCase`, via the character list. -/
def jsToLower (s : String) : String := ⟨s.data.map Char.toLower⟩

/-- Whitespace trimming on a character list (both ends). -/
def trimChars (l : List Char) : List Char :=
  ((l.dropWhile Char.isWhitespace).reverse.dropWhile Char.isWhitespace).reverse

/-- `String.prototype.trim`. -/
def jsTrim (s : String) : String := ⟨trimChars s.data⟩

/-- Contiguous-substring test on character lists (`needle` first). -/
def containsSub (n : List Char) : List Char → Bool
  | [] => n.isEmpty
  | c :: t => List.isPrefixOf n (c :: t) || containsSub n t

/-- `String.prototype.includes`. -/
def strIncludes (s sub : String) : Bool := containsSub sub.data s.data

/-! ## Auth service embedding (`src/services/auth.ts`) -/

/-- The Drive appdata OAuth scope constant. -/
def DRIVE_APPDATA_SCOPE : String := "https://www.googleapis.com/auth/drive.appdata"

/-- `VERIFIER_EXPIRY_MS = 5 * 60 * 1000`. -/
def VERIFIER_EXPIRY_MS : ℚ := 5 * 60 * 1000

/-- An entry of the `pendingVerifiers` map. -/
structure VerifierEntry where
  verifier : String
  state : String
  expiresAt : ℚ
deriving DecidableEq, Repr

/-- First-match lookup in an association list (JS `Map.get`). -/
def mapLookup (k : String) : List (String × α) → Option α
  | [] => none
  | (k2, v) :: rest => if k2 == k then some v else mapLookup k rest

/-- JS `Map.set`: replace in place if the key exists, else append. -/
def mapSet (k : String) (v : α) : List (String × α) → List (String × α)
  | [] => [(k, v)]
  | (k2, v2) :: rest =>
    if k2 == k then (k2, v) :: rest else (k2, v2) :: mapSet k v rest

/-- JS `Map.delete` (keys are unique, so filtering is deletion). -/
def mapDelete (k : String) (m : List (String × α)) : List (String × α) :=
  m.filter (fun p => !(p.1 == k))

/-- `storePendingVerifier`: evict every expired entry, then insert the new
entry with a fresh expiry. -/
def storePendingVerifier (m : List (String × VerifierEntry)) (state verifier : String)
    (now : ℚ) : List (String × VerifierEntry) :=
  mapSet state ⟨verifier, state, now + VERIFIER_EXPIRY_MS⟩
    (m.filter (fun p => decide (now < p.2.expiresAt)))

/-- `consumePendingVerifier`: remove the entry for the key; return its verifier
only if it had not yet expired. -/
def consumePendingVerifier (m : List (String × VerifierEntry)) (state : String)
    (now : ℚ) : Option String × List (String × VerifierEntry) :=
  match mapLookup state m with
  | none => (none, m)
  | some entry =>
    let m2 := mapDelete state m
    if now ≥ entry.expiresAt then (none, m2) else (some entry.verifier, m2)

/-- A captured popup handle: probing `.closed` either answers, or raises a
security exception under cross-origin isolation. -/
inductive PopupProbe where
  | reachable (closed : Bool)
  | raises
deriving DecidableEq, Repr

/-- `isPopupClosed`: no handle counts as closed; a probe that raises is
treated as closed (never as open). -/
def isPopupClosed : Option PopupProbe → Bool
  | none => true
  | some (.reachable c) => c
  | some .raises => true

/-- The mutable module state of `auth.ts` that the claims touch. -/
structure AuthState where
  pendingVerifiers : List (String × VerifierEntry)
  currentAuthState : Option String
  signInPopup : Option PopupProbe
  isAuthPopupPending : Bool
  hasTokenClient : Bool
  canInit : Bool
deriving DecidableEq, Repr

/-- `getOpenPopup`: returns the tracked popup if it is still open; clears the
stale handle otherwise. -/
def getOpenPopup (st : AuthState) : Option PopupProbe × AuthState :=
  match st.signInPopup with
  | none => (none, st)
  | some p =>
    if isPopupClosed (some p) then (none, { st with signInPopup := none })
    else (some p, st)

/-- The token payload handed to the success handler. -/
structure TokenResponse where
  access_token : String
  expires_in : JSNum
  scope : String
  token_type : String
deriving DecidableEq, Repr

/-- A provider callback response (fields the callback reads). -/
structure CallbackResponse where
  error : Option String
  state : Option String
  access_token : String
  expires_in : JSNum
  scope : String
  token_type : String
deriving DecidableEq, Repr

/-- Which handler the token-client callback ends up invoking. -/
inductive CallbackResult where
  | errorOut (e : String)
  | success (t : TokenResponse)
deriving DecidableEq, Repr

/-- The token-client callback registered by `initializeAuth`. -/
def tokenClientCallback (resp : CallbackResponse) (st : AuthState) (now : ℚ) :
    AuthState × CallbackResult :=
  if jsTruthyStr resp.error then
    ({ st with currentAuthState := none }, .errorOut (resp.error.getD ""))
  else
    if jsTruthyStr resp.state && jsTruthyStr st.currentAuthState
        && !(resp.state == st.currentAuthState) then
      ({ st with currentAuthState := none }, .errorOut "state_mismatch")
    else
      let st1 :=
        if jsTruthyStr resp.state || jsTruthyStr st.currentAuthState then
          { st with pendingVerifiers :=
              (consumePendingVerifier st.pendingVerifiers
                (resp.state.getD (st.currentAuthState.getD "")) now).2 }
        else st
      ({ st1 with currentAuthState := none },
        .success ⟨resp.access_token, resp.expires_in, resp.scope, resp.token_type⟩)

/-- Result of a `signIn` call. -/
inductive SignInStatus where
  | opened
  | focused
  | unavailable
deriving DecidableEq, Repr

/-- `signIn`: lazily initialize the client, focus an already-open popup, or
start a fresh flow tagged with a freshly generated state. -/
def signIn (st : AuthState) (freshState : String) (now : ℚ) :
    AuthState × SignInStatus :=
  let st := if !st.hasTokenClient && st.canInit then { st with hasTokenClient := true } else st
  if !st.hasTokenClient then (st, .unavailable)
  else
    match getOpenPopup st with
    | (some _, st2) => (st2, .focused)
    | (none, st2) =>
      ({ st2 with
          isAuthPopupPending := true,
          pendingVerifiers :=
            storePendingVerifier st2.pendingVerifiers freshState "implicit_flow" now,
          currentAuthState := some freshState },
        .opened)

/-- The three tab-scoped session slots. -/
structure SessionStore where
  accessToken : Option String
  expiresAt : Option ℚ
  grantedScopes : Option String
deriving DecidableEq, Repr

/-- `storeAuth`: validate the token and expiry, then persist them; the scope
slot is written only when a truthy scope string is supplied. -/
def storeAuth (token : String) (expiresIn : JSNum) (scopes : Option String)
    (now : ℚ) (store : SessionStore) : Except String (ℚ × SessionStore) :=
  if token == "" || token.length < 10 then .error "Invalid access token"
  else
    match expiresIn with
    | .num q =>
      if q ≤ 0 then .error "Invalid token expiration"
      else
        let expiresAt := now + q * 1000
        let store1 := { store with accessToken := some token, expiresAt := some expiresAt }
        let store2 := if jsTruthyStr scopes then { store1 with grantedScopes := scopes } else store1
        .ok (expiresAt, store2)
    | _ => .error "Invalid token expiration"

/-- The callback of the token client created by `requestDriveScope`, closed
over the state generated for that call; returns the updated pending map and
session store together with the value the promise resolves to. -/
def driveScopeCallback (resp : CallbackResponse) (state : String)
    (pv : List (String × VerifierEntry)) (store : SessionStore) (now : ℚ) :
    List (String × VerifierEntry) × SessionStore × Bool :=
  if jsTruthyStr resp.error then (pv, store, false)
  else if !(resp.state == some state) then (pv, store, false)
  else
    let pv2 := (consumePendingVerifier pv state now).2
    match storeAuth resp.access_token resp.expires_in (some resp.scope) now store with
    | .error _ => (pv2, store, false)
    | .ok (_, store2) => (pv2, store2, strIncludes resp.scope DRIVE_APPDATA_SCOPE)

/-! ## Categories service embedding (`src/services/categories.ts`) -/

/-- `MAX_LABEL_LENGTH = 32`. -/
def MAX_LABEL_LENGTH : Nat := 32

/-- Category keyword-match mode. -/
inductive CategoryMatchMode where
  | any
  | all
deriving DecidableEq, Repr

/-- A well-formed category as stored by the service. -/
structure Category where
  id : String
  label : String
  color : String
  keywords : List String
  matchMode : CategoryMatchMode
  createdAt : ℚ
  updatedAt : ℚ
  isDefault : Bool
deriving DecidableEq, Repr

/-- A category as it arrives from an untrusted source (optional / non-finite
fields as the runtime checks in `sanitizeCategories` anticipate). -/
structure RawCategory where
  id : String
  label : String
  color : String
  keywords : List String
  matchMode : Option CategoryMatchMode
  createdAt : JSNum
  updatedAt : JSNum
  isDefault : Option Bool
deriving DecidableEq, Repr

/-- The input shape for `addCategory` / `updateCategory`. -/
structure CategoryInput where
  label : String
  color : String
  keywords : List String
  matchMode : Option CategoryMatchMode
deriving DecidableEq, Repr

/-- The `{category, error}` result shape. -/
structure CategoryResult where
  category : Option Category
  error : Option String
deriving DecidableEq, Repr

/-- `normalizeLabel`. -/
def normalizeLabel (label : String) : String := jsTrim label

/-- `normalizeMatchMode`. -/
def normalizeMatchMode (mode : Option CategoryMatchMode) : CategoryMatchMode :=
  if mode == some .all then .all else .any

/-- `isValidColor`: the regular expression is an exact match of
a number sign followed by six hexadecimal digits. -/
def isValidColor (color : String) : Bool :=
  match color.data with
  | '#' :: rest => rest.length == 6 &&
      rest.all (fun c => c.isDigit || ('a' ≤ c && c ≤ 'f') || ('A' ≤ c && c ≤ 'F'))
  | _ => false

/-- The loop body of `normalizeKeywords`, with the `seen` set (of lowercased
keywords) made explicit. -/
def normalizeKeywordsAux : List String → List String → List String
  | [], _ => []
  | k :: rest, seen =>
    let trimmed := jsTrim k
    if trimmed == "" then normalizeKeywordsAux rest seen
    else
      let normalized := jsToLower trimmed
      if seen.contains normalized then normalizeKeywordsAux rest seen
      else trimmed :: normalizeKeywordsAux rest (normalized :: seen)

/-- `normalizeKeywords`: trim, drop empties, dedupe case-insensitively
keeping original casing and first-seen order. -/
def normalizeKeywords (keywords : List String) : List String :=
  normalizeKeywordsAux keywords []

/-- Specification-side restatement: keep each string when no
case-insensitively equal string precedes it. -/
def dedupCaseInsensitive : List String → List String
  | [] => []
  | x :: rest =>
    x :: dedupCaseInsensitive (rest.filter (fun y => !(jsToLower y == jsToLower x)))
termination_by l => l.length
decreasing_by
  simp_wf
  exact Nat.lt_succ_of_le (List.length_filter_le _ _)

/-- Specification-side restatement of keyword normalization, written from the
claim text: trim each entry, drop entries empty after trim, then remove
case-insensitive duplicates keeping first occurrences. -/
def specNormalizeKeywords (keywords : List String) : List String :=
  dedupCaseInsensitive ((keywords.map jsTrim).filter (fun s => !(s == "")))

/-- JS `Map.set` specialised to the label-dedup map of `sanitizeCategories`. -/
def upsertCategory (k : String) (v : Category) :
    List (String × Category) → List (String × Category)
  | [] => [(k, v)]
  | (k2, v2) :: rest =>
    if k2 == k then (k2, v) :: rest else (k2, v2) :: upsertCategory k v rest

/-- One step of the `sanitizeCategories` loop. -/
def sanitizeStep (now : ℚ) (m : List (String × Category)) (entry : RawCategory) :
    List (String × Category) :=
  if entry.id == "" then m
  else
    let label := normalizeLabel entry.label
    let keywords := normalizeKeywords entry.keywords
    if label == "" || !isValidColor entry.color then m
    else
      let createdAt := match entry.createdAt with | .num q => q | _ => now
      let updatedAt := match entry.updatedAt with | .num q => q | _ => createdAt
      let candidate : Category :=
        ⟨entry.id, label, entry.color, keywords, normalizeMatchMode entry.matchMode,
          createdAt, updatedAt, entry.isDefault.getD false⟩
      let normalizedLabel := jsToLower label
      match mapLookup normalizedLabel m with
      | none => upsertCategory normalizedLabel candidate m
      | some existing =>
        if existing.updatedAt < candidate.updatedAt then
          upsertCategory normalizedLabel candidate m
        else m

/-- `sanitizeCategories`: per-entry validation plus case-insensitive label
dedup keeping the later `updatedAt`; result in key-insertion order. -/
def sanitizeCategories (cats : List RawCategory) (now : ℚ) : List Category :=
  (cats.foldl (sanitizeStep now) []).map (fun p => p.2)

/-- `setCategories` (the cloud-sync set-all entry point). -/
def setCategories (newCategories : List RawCategory) (now : ℚ) : List Category :=
  sanitizeCategories newCategories now

/-- `buildCategory`: validation for locally created or edited categories.
Random id generation is modelled by the `freshId` parameter. -/
def buildCategory (input : CategoryInput) (existing : List Category)
    (idOpt : Option String) (now : ℚ) (freshId : String) : CategoryResult :=
  let label := normalizeLabel input.label
  if label == "" then ⟨none, some "Name is required."⟩
  else if MAX_LABEL_LENGTH < label.length then
    ⟨none, some "Name must be 32 characters or fewer."⟩
  else
    let keywords := normalizeKeywords input.keywords
    if keywords.length == 0 then ⟨none, some "Add at least one keyword."⟩
    else if !isValidColor input.color then ⟨none, some "Pick a valid color."⟩
    else
      let normalizedLabel := jsToLower label
      if existing.any (fun e => !(some e.id == idOpt) && (jsToLower e.label == normalizedLabel)) then
        ⟨none, some "A category with this name already exists."⟩
      else if normalizedLabel == "uncategorized" then ⟨none, some "This name is reserved."⟩
      else
        let existingCat := idOpt.bind (fun i => existing.find? (fun e => e.id == i))
        ⟨some
          ⟨idOpt.getD freshId, label, input.color, keywords,
            normalizeMatchMode input.matchMode,
            (existingCat.map (fun e => e.createdAt)).getD now, now,
            (existingCat.map (fun e => e.isDefault)).getD false⟩,
          none⟩

/-- `addCategory`: build (with no id, so a fresh one is used) and append. -/
def addCategory (input : CategoryInput) (cats : List Category) (now : ℚ)
    (freshId : String) : CategoryResult × List Category :=
  match buildCategory input cats none now freshId with
  | ⟨some c, e⟩ => (⟨some c, e⟩, cats ++ [c])
  | r => (r, cats)

/-- `updateCategory`: rebuild under the existing id and replace in place. -/
def updateCategory (id : String) (input : CategoryInput) (cats : List Category)
    (now : ℚ) : CategoryResult × List Category :=
  match cats.find? (fun e => e.id == id) with
  | none => (⟨none, some "Category not found."⟩, cats)
  | some _ =>
    match buildCategory input cats (some id) now "" with
    | ⟨some c, e⟩ => (⟨some c, e⟩, cats.map (fun entry => if entry.id == id then c else entry))
    | r => (r, cats)

/-! ## Remote config store model (`driveSync.ts`)

The implementation file of the remote store is not part of the source tree
(only `driveSync.test.ts` is), so the retry policy and the config validator
below are modelled from the specification, and checked against the concrete
behaviours the test suite pins down. -/

/-- Outcome of one network attempt. -/
inductive AttemptOutcome where
  | ok
  | httpErr (status : Nat)
  | netErr
deriving DecidableEq, Repr

/-- Modelled from the spec: retryable failures are HTTP 429, any 5xx, or a
network-level exception; success is not a failure. -/
def isRetryable : AttemptOutcome → Bool
  | .ok => false
  | .httpErr s => s == 429 || (decide (500 ≤ s) && decide (s < 600))
  | .netErr => true

/-- Modelled from the spec: the retry loop of the missing `driveRequest`.
`resp i` is the outcome of attempt number `i`; `fuel` is the number of
retries still allowed. Returns the total number of attempts made together
with the final outcome. -/
def driveRequestGo (resp : Nat → AttemptOutcome) : Nat → Nat → Nat × AttemptOutcome
  | i, fuel =>
    match resp i, fuel with
    | .ok, _ => (i + 1, .ok)
    | o, 0 => (i + 1, o)
    | o, f + 1 =>
      if isRetryable o then driveRequestGo resp (i + 1) f else (i + 1, o)

/-- Modelled from the spec: a remote-store request retries a retryable
failure up to 3 additional times (4 attempts total). -/
def driveRequest (resp : Nat → AttemptOutcome) : Nat × AttemptOutcome :=
  driveRequestGo resp 0 3

/-- A decoded JSON value; numbers carry the JavaScript number model. -/
inductive Json where
  | null
  | bool (b : Bool)
  | num (n : JSNum)
  | str (s : String)
  | arr (items : List Json)
  | obj (fields : List (String × Json))

/-- Field access on a decoded JSON object. -/
def Json.lookup (fields : List (String × Json)) (k : String) : Option Json :=
  match fields with
  | [] => none
  | (k2, v) :: rest => if k2 == k then some v else Json.lookup rest k

/-- A validated filter. -/
structure CloudFilter where
  id : String
  pattern : String
  createdAt : ℚ
deriving DecidableEq, Repr

/-- A fully validated cloud config (version is pinned to 1 by validation). -/
structure CloudConfig where
  updatedAt : ℚ
  deviceId : String
  filters : List CloudFilter
  disabledCalendars : List String
  disabledBuiltInCategories : List String
  customCategories : List Category
deriving DecidableEq, Repr

/-- Validation result: a typed config, or a rejection status code. -/
inductive ValidationResult where
  | ok (config : CloudConfig)
  | error (code : Nat)
deriving DecidableEq, Repr

/-- The well-known built-in category identifiers. -/
def DEFAULT_CATEGORY_IDS : List String :=
  ["birthdays", "family", "holidays", "races", "work"]

/-- Modelled from the spec: soft per-item validation of a filter entry. -/
def parseFilter : Json → Option CloudFilter
  | .obj fields =>
    match Json.lookup fields "id", Json.lookup fields "pattern",
        Json.lookup fields "createdAt" with
    | some (.str i), some (.str p), some (.num (.num c)) =>
      if !(jsTrim p == "") && p.length ≤ 1000 then some ⟨i, p, c⟩ else none
    | _, _, _ => none
  | _ => none

/-- Modelled from the spec: soft validation of a disabled-calendar entry. -/
def parseDisabledCalendar : Json → Option String
  | .str s => if !(jsTrim s == "") && s.length ≤ 1000 then some s else none
  | _ => none

/-- Modelled from the spec: soft validation of a disabled-built-in-category
entry (further restricted to the known default identifiers). -/
def parseBuiltInCategory : Json → Option String
  | .str s =>
    if !(jsTrim s == "") && s.length ≤ 1000 && DEFAULT_CATEGORY_IDS.contains s then some s
    else none
  | _ => none

/-- Modelled from the spec: soft validation of a custom category entry. -/
def parseCustomCategory : Json → Option Category
  | .obj fields =>
    match Json.lookup fields "id", Json.lookup fields "label",
        Json.lookup fields "color", Json.lookup fields "keywords",
        Json.lookup fields "matchMode", Json.lookup fields "createdAt",
        Json.lookup fields "updatedAt" with
    | some (.str i), some (.str label), some (.str color), some (.arr kws),
        some (.str mode), some (.num (.num c)), some (.num (.num u)) =>
      let keywordStr : Json → Option String := fun j =>
        match j with
        | .str s => if s.length ≤ 1000 then some s else none
        | _ => none
      let parsedKeywords := kws.filterMap keywordStr
      if !(jsTrim label == "") && label.length ≤ MAX_LABEL_LENGTH
          && isValidColor color && kws.length ≤ 500
          && parsedKeywords.length == kws.length
          && (mode == "any" || mode == "all") then
        some ⟨i, label, color, parsedKeywords,
          (if mode == "all" then .all else .any), c, u, false⟩
      else none
    | _, _, _, _, _, _, _ => none
  | _ => none

/-- One of the hard structural checks on a decoded payload. -/
def versionOk (fields : List (String × Json)) : Bool :=
  match Json.lookup fields "version" with
  | some (.num (.num q)) => q == 1
  | _ => false

/-- Hard check: `updatedAt` must be a finite number. -/
def updatedAtOk (fields : List (String × Json)) : Bool :=
  match Json.lookup fields "updatedAt" with
  | some (.num n) => n.isFinite
  | _ => false

/-- Hard check: `deviceId` must be a string of at most 1000 characters. -/
def deviceIdOk (fields : List (String × Json)) : Bool :=
  match Json.lookup fields "deviceId" with
  | some (.str d) => d.length ≤ 1000
  | _ => false

/-- Hard check: the named field must be an array. -/
def fieldIsArray (fields : List (String × Json)) (k : String) : Bool :=
  match Json.lookup fields k with
  | some (.arr _) => true
  | _ => false

/-- Hard check: the filters array holds at most 500 entries. -/
def filtersSizeOk (fields : List (String × Json)) : Bool :=
  match Json.lookup fields "filters" with
  | some (.arr l) => l.length ≤ 500
  | _ => false

/-- Array extraction with an (unreachable under the hard checks) default. -/
def getArr (fields : List (String × Json)) (k : String) : List Json :=
  match Json.lookup fields k with
  | some (.arr l) => l
  | _ => []

/-- Finite-number extraction with an unreachable default. -/
def getFiniteNum (fields : List (String × Json)) (k : String) : ℚ :=
  match Json.lookup fields k with
  | some (.num (.num q)) => q
  | _ => 0

/-- String extraction with an unreachable default. -/
def getStr (fields : List (String × Json)) (k : String) : String :=
  match Json.lookup fields k with
  | some (.str s) => s
  | _ => ""

/-- Modelled from the spec: the validator of the missing `driveSync.ts`.
Structural violations (non-object input, wrong version, non-finite
`updatedAt`, bad `deviceId`, a non-array slice, an oversized filters array)
reject the whole payload with a 400 error; individually invalid array
members are silently dropped. -/
def validateCloudConfig : Json → ValidationResult
  | .obj fields =>
    if versionOk fields && updatedAtOk fields && deviceIdOk fields
        && fieldIsArray fields "filters" && fieldIsArray fields "disabledCalendars"
        && fieldIsArray fields "disabledBuiltInCategories"
        && fieldIsArray fields "customCategories" && filtersSizeOk fields then
      .ok
        ⟨getFiniteNum fields "updatedAt", getStr fields "deviceId",
          (getArr fields "filters").filterMap parseFilter,
          (getArr fields "disabledCalendars").filterMap parseDisabledCalendar,
          (getArr fields "disabledBuiltInCategories").filterMap parseBuiltInCategory,
          (getArr fields "customCategories").filterMap parseCustomCategory⟩
    else .error 400
  | _ => .error 400

/-! ## Helper lemmas -/

theorem mapLookup_mapDelete_self (k : String) (m : List (String × α)) :
    mapLookup k (mapDelete k m) = none := by
  induction m with
  | nil => rfl
  | cons p rest ih =>
    by_cases h : p.1 == k
    · simpa [mapDelete, List.filter_cons, h] using ih
    · simp only [mapDelete, List.filter_cons, h, Bool.not_false, if_pos]
      simpa [mapLookup, h, mapDelete] using ih

theorem mapLookup_mapSet_self (k : String) (v : α) (m : List (String × α)) :
    mapLookup k (mapSet k v m) = some v := by
  induction m with
  | nil => simp [mapSet, mapLookup]
  | cons p rest ih =>
    by_cases h : p.1 == k
    · simp [mapSet, mapLookup, h]
    · simpa [mapSet, mapLookup, h] using ih

/-! ## C7 — state correlation store consumption is exactly-once -/

/-- C7: `consume(state)` removes the entry and returns its tag exactly when the
entry is present and unexpired; a repeated consume returns nothing, consuming
an absent key returns nothing, and consuming an expired entry returns
nothing. -/
theorem consume_exactly_once (m : List (String × VerifierEntry)) (s : String) (now : ℚ) :
    (∀ e, mapLookup s m = some e → now < e.expiresAt →
      consumePendingVerifier m s now = (some e.verifier, mapDelete s m) ∧
      consumePendingVerifier (consumePendingVerifier m s now).2 s now =
        (none, mapDelete s m)) ∧
    (∀ e, mapLookup s m = some e → e.expiresAt ≤ now →
      consumePendingVerifier m s now = (none, mapDelete s m)) ∧
    (mapLookup s m = none → consumePendingVerifier m s now = (none, m)) := by
  refine ⟨fun e he hlt => ?_, fun e he hle => ?_, fun hnone => ?_⟩
  · have hfirst : consumePendingVerifier m s now = (some e.verifier, mapDelete s m) := by
      simp [consumePendingVerifier, he, not_le.mpr hlt]
    refine ⟨hfirst, ?_⟩
    rw [hfirst]
    simp [consumePendingVerifier, mapLookup_mapDelete_self]
  · simp [consumePendingVerifier, he, hle]
  · simp [consumePendingVerifier, hnone]

/-- C7 witness: a concrete unexpired entry is consumed once and only once. -/
theorem consume_exactly_once_witness :
    consumePendingVerifier [("S", ⟨"implicit_flow", "S", 300000⟩)] "S" 0 =
      (some "implicit_flow", mapDelete "S" [("S", ⟨"implicit_flow", "S", 300000⟩)]) ∧
    consumePendingVerifier
      (consumePendingVerifier [("S", ⟨"implicit_flow", "S", 300000⟩)] "S" 0).2 "S" 0 =
      (none, mapDelete "S" [("S", ⟨"implicit_flow", "S", 300000⟩)]) :=
  (consume_exactly_once [("S", ⟨"implicit_flow", "S", 300000⟩)] "S" 0).1
    ⟨"implicit_flow", "S", 300000⟩ (by decide) (by decide)

/-! ## C10 — storeAuth validation and effect -/

/-- C10: `storeAuth` raises exactly when the token has fewer than 10
characters or the expiry is not a finite positive number; otherwise it stores
the token and the expiry `now + expiresIn * 1000`, writes the scope slot only
for a truthy scope argument, and returns the expiry. -/
theorem storeAuth_spec (token : String) (expiresIn : JSNum) (scopes : Option String)
    (now : ℚ) (store : SessionStore) :
    ((∃ e, storeAuth token expiresIn scopes now store = .error e) ↔
      (token.length < 10 ∨ ¬ ∃ q, expiresIn = .num q ∧ 0 < q)) ∧
    (∀ q, expiresIn = .num q → 0 < q → 10 ≤ token.length →
      storeAuth token expiresIn scopes now store =
        .ok (now + q * 1000,
          { accessToken := some token, expiresAt := some (now + q * 1000),
            grantedScopes := if jsTruthyStr scopes then scopes else store.grantedScopes })) := by
  by_cases hshort : token.length < 10
  · have hguard : (token == "" || decide (token.length < 10)) = true := by simp [hshort]
    have herr : storeAuth token expiresIn scopes now store = .error "Invalid access token" := by
      simp [storeAuth, hguard]
    refine ⟨iff_of_true ⟨_, herr⟩ (Or.inl hshort), fun q hq hpos hlen => ?_⟩
    omega
  · have htok : ¬ token = "" := by
      intro h
      subst h
      exact hshort (by decide)
    have hguard : (token == "" || decide (token.length < 10)) = false := by
      simp [hshort, htok]
    cases expiresIn with
    | num q =>
      by_cases hq : q ≤ 0
      · have herr : storeAuth token (.num q) scopes now store =
            .error "Invalid token expiration" := by
          simp [storeAuth, hguard, hq]
        constructor
        · refine iff_of_true ⟨_, herr⟩ (Or.inr ?_)
          rintro ⟨q2, hq2, hpos⟩
          cases hq2
          exact absurd hpos (not_lt.mpr hq)
        · intro q2 hq2 hpos hlen
          cases hq2
          exact absurd hpos (not_lt.mpr hq)
      · have hok : storeAuth token (.num q) scopes now store =
            .ok (now + q * 1000,
              { accessToken := some token, expiresAt := some (now + q * 1000),
                grantedScopes := if jsTruthyStr scopes then scopes else store.grantedScopes }) := by
          by_cases hsc : jsTruthyStr scopes = true <;>
            simp [storeAuth, hguard, hq, hsc]
        constructor
        · refine iff_of_false ?_ ?_
          · rintro ⟨e, he⟩
            rw [hok] at he
            cases he
          · rintro (h | h)
            · exact hshort h
            · exact h ⟨q, rfl, lt_of_not_le hq⟩
        · intro q2 hq2 hpos hlen
          cases hq2
          exact hok
    | nan =>
      have herr : storeAuth token .nan scopes now store =
          .error "Invalid token expiration" := by
        simp [storeAuth, hguard]
      refine ⟨iff_of_true ⟨_, herr⟩ (Or.inr ?_), fun q hq => by cases hq⟩
      rintro ⟨q, hq, _⟩
      cases hq
    | posInf =>
      have herr : storeAuth token .posInf scopes now store =
          .error "Invalid token expiration" := by
        simp [storeAuth, hguard]
      refine ⟨iff_of_true ⟨_, herr⟩ (Or.inr ?_), fun q hq => by cases hq⟩
      rintro ⟨q, hq, _⟩
      cases hq
    | negInf =>
      have herr : storeAuth token .negInf scopes now store =
          .error "Invalid token expiration" := by
        simp [storeAuth, hguard]
      refine ⟨iff_of_true ⟨_, herr⟩ (Or.inr ?_), fun q hq => by cases hq⟩
      rintro ⟨q, hq, _⟩
      cases hq

/-- C10 witness: a valid token and expiry are stored, with the scope slot
written, and the computed expiry returned. -/
theorem storeAuth_spec_witness :
    storeAuth "0123456789" (.num 3600) (some "scope-a") 7 ⟨none, none, none⟩ =
      .ok (7 + 3600 * 1000,
        { accessToken := some "0123456789", expiresAt := some (7 + 3600 * 1000),
          grantedScopes := if jsTruthyStr (some "scope-a") then some "scope-a" else none }) :=
  (storeAuth_spec "0123456789" (.num 3600) (some "scope-a") 7 ⟨none, none, none⟩).2
    3600 rfl (by norm_num) (by decide)

theorem jsTruthyStr_none : jsTruthyStr none = false := rfl

theorem jsTruthyStr_some (s : String) : jsTruthyStr (some s) = !(s == "") := rfl

/-! ## C1 — CSRF state validation in the token-client callback -/

/-- C1 counterexample: a non-error callback whose state differs from the
tracked state is rejected with `state_mismatch`, yet the pending verifier
entry stored for the flow is NOT discarded — it is still present (and
consumable) afterwards. -/
theorem authCallback_mismatch_keeps_entry :
    (tokenClientCallback ⟨none, some "other", "tok", .num 3600, "", ""⟩
      ⟨[("S", ⟨"implicit_flow", "S", 300000⟩)], some "S", none, false, true, true⟩ 0).2 =
      .errorOut "state_mismatch" ∧
    ¬ (mapLookup "S"
        (tokenClientCallback ⟨none, some "other", "tok", .num 3600, "", ""⟩
          ⟨[("S", ⟨"implicit_flow", "S", 300000⟩)], some "S", none, false, true, true⟩ 0).1.pendingVerifiers
        = none) := by
  decide

/-- C1 amended: for a non-error callback with both states present, a
mismatch is rejected with `state_mismatch` (the success handler is not
invoked) and the tracked state is cleared, while the stored verifier map is
left untouched; a match invokes the success handler with the token, clears
the tracked state, and consumes the verifier entry. -/
theorem authCallback_state_validation (resp : CallbackResponse) (st : AuthState)
    (now : ℚ) (rs cs : String)
    (herr : jsTruthyStr resp.error = false)
    (hrs : resp.state = some rs) (hrs0 : rs ≠ "")
    (hcs : st.currentAuthState = some cs) (hcs0 : cs ≠ "") :
    (rs ≠ cs →
      tokenClientCallback resp st now =
        ({ st with currentAuthState := none }, .errorOut "state_mismatch")) ∧
    (rs = cs →
      tokenClientCallback resp st now =
        ({ st with
            currentAuthState := none,
            pendingVerifiers := (consumePendingVerifier st.pendingVerifiers rs now).2 },
          .success ⟨resp.access_token, resp.expires_in, resp.scope, resp.token_type⟩)) := by
  constructor
  · intro hne
    simp [tokenClientCallback, herr, hrs, hcs, hrs0, hcs0, jsTruthyStr_some, hne]
  · intro heq
    subst heq
    simp [tokenClientCallback, herr, hrs, hcs, hrs0, jsTruthyStr_some]

/-- C1 amended witness: a concrete mismatching callback. -/
theorem authCallback_state_validation_witness :
    tokenClientCallback ⟨none, some "B", "tok", .num 3600, "sc", "Bearer"⟩
      ⟨[], some "A", none, false, true, true⟩ 0 =
      (⟨[], none, none, false, true, true⟩, .errorOut "state_mismatch") :=
  (authCallback_state_validation ⟨none, some "B", "tok", .num 3600, "sc", "Bearer"⟩
      ⟨[], some "A", none, false, true, true⟩ 0 "B" "A"
      (by decide) rfl (by decide) rfl (by decide)).1 (by decide)

/-! ## C2 — acceptance of state-less callbacks -/

/-- C2 counterexample: with no pending flow at all (empty verifier map, no
tracked state), a state-less non-error callback is still accepted and the
success handler is invoked. -/
theorem authCallback_stateless_no_flow_accepted :
    (⟨[], none, none, false, true, true⟩ : AuthState).pendingVerifiers = [] ∧
    (⟨[], none, none, false, true, true⟩ : AuthState).currentAuthState = none ∧
    (tokenClientCallback ⟨none, none, "tok", .num 3600, "scope", "Bearer"⟩
      ⟨[], none, none, false, true, true⟩ 0).2 =
      .success ⟨"tok", .num 3600, "scope", "Bearer"⟩ := by
  decide

/-- C2 amended: a non-error callback that carries no state value is always
accepted — the success handler is invoked whether or not any flow is
pending. -/
theorem authCallback_stateless_accepted (resp : CallbackResponse) (st : AuthState)
    (now : ℚ) (herr : jsTruthyStr resp.error = false) (hstate : resp.state = none) :
    (tokenClientCallback resp st now).2 =
      .success ⟨resp.access_token, resp.expires_in, resp.scope, resp.token_type⟩ := by
  rcases hcs : st.currentAuthState with _ | cs
  · simp [tokenClientCallback, herr, hstate, hcs, jsTruthyStr_none]
  · by_cases hcs0 : cs = "" <;>
      simp [tokenClientCallback, herr, hstate, hcs, hcs0, jsTruthyStr_none, jsTruthyStr_some]

/-- C2 amended witness: a state-less callback with a pending flow present is
also accepted. -/
theorem authCallback_stateless_accepted_witness :
    (tokenClientCallback ⟨none, none, "tok", .num 3600, "scope", "Bearer"⟩
      ⟨[("S", ⟨"implicit_flow", "S", 300000⟩)], some "S", none, false, true, true⟩ 0).2 =
      .success ⟨"tok", .num 3600, "scope", "Bearer"⟩ :=
  authCallback_stateless_accepted ⟨none, none, "tok", .num 3600, "scope", "Bearer"⟩
    ⟨[("S", ⟨"implicit_flow", "S", 300000⟩)], some "S", none, false, true, true⟩ 0
    (by decide) rfl

/-! ## C5 — requestDriveScope resolution -/

/-- C5: the scope-escalation callback resolves true only when the response
is not an error, its state equals the state generated for this call, and the
granted-scope string includes the Drive appdata scope; an error, a state
mismatch, or an absent scope each force resolution to false. -/
theorem requestDriveScope_resolution (resp : CallbackResponse) (state : String)
    (pv : List (String × VerifierEntry)) (store : SessionStore) (now : ℚ) :
    ((driveScopeCallback resp state pv store now).2.2 = true →
      jsTruthyStr resp.error = false ∧ resp.state = some state ∧
      strIncludes resp.scope DRIVE_APPDATA_SCOPE = true) ∧
    (jsTruthyStr resp.error = true →
      (driveScopeCallback resp state pv store now).2.2 = false) ∧
    (resp.state ≠ some state →
      (driveScopeCallback resp state pv store now).2.2 = false) ∧
    (strIncludes resp.scope DRIVE_APPDATA_SCOPE = false →
      (driveScopeCallback resp state pv store now).2.2 = false) := by
  by_cases herr : jsTruthyStr resp.error = true
  · simp [driveScopeCallback, herr]
  · have herr2 : jsTruthyStr resp.error = false := by
      cases h : jsTruthyStr resp.error
      · rfl
      · exact absurd h herr
    by_cases hst : resp.state = some state
    · rcases hok : storeAuth resp.access_token resp.expires_in (some resp.scope) now store with e | p
      · simp [driveScopeCallback, herr2, hst, hok]
      · simp [driveScopeCallback, herr2, hst, hok]
    · have hbeq : (resp.state == some state) = false := by simp [hst]
      simp [driveScopeCallback, herr2, hbeq, hst]

/-- C5 witness: a concrete error callback resolves false, and a concrete
successful grant with matching state resolves only with the scope present. -/
theorem requestDriveScope_resolution_witness :
    (driveScopeCallback ⟨some "access_denied", some "S", "", .num 0, "", ""⟩ "S" []
      ⟨none, none, none⟩ 0).2.2 = false ∧
    (driveScopeCallback ⟨none, some "T", "0123456789", .num 3600,
        "https://www.googleapis.com/auth/drive.appdata", "Bearer"⟩ "S" []
      ⟨none, none, none⟩ 0).2.2 = false :=
  ⟨(requestDriveScope_resolution ⟨some "access_denied", some "S", "", .num 0, "", ""⟩ "S" []
      ⟨none, none, none⟩ 0).2.1 (by decide),
    (requestDriveScope_resolution ⟨none, some "T", "0123456789", .num 3600,
        "https://www.googleapis.com/auth/drive.appdata", "Bearer"⟩ "S" []
      ⟨none, none, none⟩ 0).2.2.1 (by decide)⟩

/-! ## C6 — popup lifecycle and repeated signIn -/

/-- C6: while the tracked popup is open and reachable, `signIn` focuses it,
returns `focused`, and changes nothing (no new flow, no new popup); when the
popup reports closed, or probing it raises (always treated as closed), or no
popup is tracked, `signIn` starts a fresh flow: it returns `opened`,
registers the fresh state in the verifier store, and tracks it as the
current flow. -/
theorem signIn_popup_lifecycle (st : AuthState) (freshState : String) (now : ℚ)
    (htc : st.hasTokenClient = true) :
    (∀ p, st.signInPopup = some p → isPopupClosed (some p) = false →
      signIn st freshState now = (st, .focused)) ∧
    (isPopupClosed st.signInPopup = true →
      (signIn st freshState now).2 = .opened ∧
      mapLookup freshState (signIn st freshState now).1.pendingVerifiers =
        some ⟨"implicit_flow", freshState, now + VERIFIER_EXPIRY_MS⟩ ∧
      (signIn st freshState now).1.currentAuthState = some freshState ∧
      (signIn st freshState now).1.signInPopup = none) := by
  constructor
  · intro p hp hopen
    simp [signIn, htc, getOpenPopup, hp, hopen]
  · intro hclosed
    rcases hp : st.signInPopup with _ | p
    · simp [signIn, htc, getOpenPopup, hp, storePendingVerifier, mapLookup_mapSet_self]
    · rw [hp] at hclosed
      simp [signIn, htc, getOpenPopup, hp, hclosed, storePendingVerifier,
        mapLookup_mapSet_self]

/-- C6 witness: with a popup whose probe raises a security exception, the
next signIn opens a fresh flow. -/
theorem signIn_popup_lifecycle_witness :
    (signIn ⟨[], none, some .raises, false, true, true⟩ "S2" 0).2 = .opened ∧
    mapLookup "S2" (signIn ⟨[], none, some .raises, false, true, true⟩ "S2" 0).1.pendingVerifiers =
      some ⟨"implicit_flow", "S2", 0 + VERIFIER_EXPIRY_MS⟩ ∧
    (signIn ⟨[], none, some .raises, false, true, true⟩ "S2" 0).1.currentAuthState = some "S2" ∧
    (signIn ⟨[], none, some .raises, false, true, true⟩ "S2" 0).1.signInPopup = none :=
  (signIn_popup_lifecycle ⟨[], none, some .raises, false, true, true⟩ "S2" 0 rfl).2 (by decide)

/-! ## C3 — retry policy of the remote store -/

theorem driveRequestGo_retry_step (resp : Nat → AttemptOutcome) (i f : Nat)
    (h : isRetryable (resp i) = true) :
    driveRequestGo resp i (f + 1) = driveRequestGo resp (i + 1) f := by
  rcases hr : resp i with _ | s
  · rw [hr] at h
    cases h
  · rw [hr] at h
    simp [driveRequestGo, hr, h]
  · simp [driveRequestGo, hr, isRetryable]

theorem driveRequestGo_last (resp : Nat → AttemptOutcome) (i : Nat) :
    driveRequestGo resp i 0 = (i + 1, resp i) := by
  rcases hr : resp i with _ | s <;> simp [driveRequestGo, hr]

theorem driveRequestGo_give_up (resp : Nat → AttemptOutcome) (i f : Nat)
    (hok : resp i ≠ .ok) (h : isRetryable (resp i) = false) :
    driveRequestGo resp i (f + 1) = (i + 1, resp i) := by
  rcases hr : resp i with _ | s
  · exact absurd hr hok
  · rw [hr] at h
    simp [driveRequestGo, hr, h]
  · rw [hr] at h
    cases h

/-- C3: a remote-store request whose first three attempts fail with a
retryable classification (HTTP 429, 5xx, or a network exception) is retried
up to 3 additional times and ends after exactly 4 attempts with the fourth
attempt's outcome — the original status code of an exhausted retryable
failure, or success; while a non-retryable 4xx failure on the first attempt
is returned immediately after exactly 1 attempt. -/
theorem driveRequest_retry_policy (resp : Nat → AttemptOutcome) :
    ((∀ i, i < 3 → isRetryable (resp i) = true) → driveRequest resp = (4, resp 3)) ∧
    (∀ s, 400 ≤ s → s < 500 → s ≠ 429 → resp 0 = .httpErr s →
      driveRequest resp = (1, .httpErr s)) := by
  constructor
  · intro h
    rw [driveRequest,
      driveRequestGo_retry_step resp 0 2 (h 0 (by norm_num)),
      driveRequestGo_retry_step resp 1 1 (h 1 (by norm_num)),
      driveRequestGo_retry_step resp 2 0 (h 2 (by norm_num)),
      driveRequestGo_last]
  · intro s h400 h500 h429 hr
    have hnr : isRetryable (resp 0) = false := by
      rw [hr]
      simp [isRetryable, h429]
      omega
    rw [driveRequest, driveRequestGo_give_up resp 0 2 (by rw [hr]; intro h; cases h) hnr, hr]

/-- C3 witness: three HTTP 500 failures followed by a success succeed after
exactly 4 attempts, and a first-attempt HTTP 403 fails after exactly 1. -/
theorem driveRequest_retry_policy_witness :
    driveRequest (fun i => if i < 3 then .httpErr 500 else .ok) = (4, .ok) ∧
    driveRequest (fun _ => .httpErr 403) = (1, .httpErr 403) := by
  constructor
  · have h := (driveRequest_retry_policy (fun i => if i < 3 then .httpErr 500 else .ok)).1
      (by
        intro i hi
        have h0 : i = 0 ∨ i = 1 ∨ i = 2 := by omega
        rcases h0 with h0 | h0 | h0 <;> rw [h0] <;> decide)
    simpa using h
  · exact (driveRequest_retry_policy (fun _ => .httpErr 403)).2 403
      (by norm_num) (by norm_num) (by norm_num) rfl

/-! ## C4 — hard rejection of oversized filters arrays -/

/-- C4: any payload whose `filters` field is an array of more than 500
entries — well-formed or not — is rejected whole with a 400 error; no
partial result is produced. -/
theorem config_filters_overflow (fields : List (String × Json)) (l : List Json)
    (hf : Json.lookup fields "filters" = some (.arr l)) (hlen : 500 < l.length) :
    validateCloudConfig (.obj fields) = .error 400 := by
  have hsz : filtersSizeOk fields = false := by
    unfold filtersSizeOk
    rw [hf]
    simp only [decide_eq_false_iff_not, not_le]
    exact hlen
  simp [validateCloudConfig, hsz]

/-- C4 witness: 501 individually well-formed filter entries in an otherwise
valid payload are rejected whole with a 400 error. -/
theorem config_filters_overflow_witness :
    validateCloudConfig (.obj
      [("version", .num (.num 1)), ("updatedAt", .num (.num 1000)),
        ("deviceId", .str "test"),
        ("filters", .arr (List.replicate 501 (.obj
          [("id", .str "1"), ("pattern", .str "test"),
            ("createdAt", .num (.num 1000))]))),
        ("disabledCalendars", .arr []), ("disabledBuiltInCategories", .arr []),
        ("customCategories", .arr [])]) = .error 400 :=
  config_filters_overflow _
    (List.replicate 501 (.obj
      [("id", .str "1"), ("pattern", .str "test"), ("createdAt", .num (.num 1000))]))
    rfl (by rw [List.length_replicate]; omega)

/-! ## C9 — keyword normalization -/

theorem normalizeKeywordsAux_eq (ks : List String) (seen : List String) :
    normalizeKeywordsAux ks seen =
      dedupCaseInsensitive ((ks.map jsTrim).filter
        (fun s => !(s == "") && !(seen.contains (jsToLower s)))) := by
  induction ks generalizing seen with
  | nil => simp [normalizeKeywordsAux, dedupCaseInsensitive]
  | cons k rest ih =>
    simp only [normalizeKeywordsAux, List.map_cons, List.filter_cons]
    by_cases ht : (jsTrim k == "") = true
    · simp only [ht, if_true, Bool.not_true, Bool.false_and, Bool.false_eq_true, if_false]
      exact ih seen
    · have ht2 : (jsTrim k == "") = false := by
        cases h : (jsTrim k == "")
        · rfl
        · exact absurd h ht
      by_cases hs : seen.contains (jsToLower (jsTrim k)) = true
      · simp only [ht2, Bool.false_eq_true, if_false, hs, Bool.not_true, Bool.not_false,
          Bool.true_and, if_true]
        exact ih seen
      · have hs2 : seen.contains (jsToLower (jsTrim k)) = false := by
          cases h : seen.contains (jsToLower (jsTrim k))
          · rfl
          · exact absurd h hs
        simp only [ht2, Bool.false_eq_true, if_false, hs2, Bool.not_true, Bool.not_false,
          Bool.true_and, if_true, dedupCaseInsensitive]
        rw [ih (jsToLower (jsTrim k) :: seen)]
        refine congrArg (fun l => jsTrim k :: l) (congrArg dedupCaseInsensitive ?_)
        rw [List.filter_filter]
        refine List.filter_congr ?_
        intro a _
        cases h1 : (a == "") <;>
          cases h2 : seen.contains (jsToLower a) <;>
            cases h3 : (jsToLower a == jsToLower (jsTrim k)) <;>
              simp only [List.contains_cons, h1, h2, h3, Bool.not_true, Bool.not_false,
                Bool.true_and, Bool.false_and, Bool.and_true, Bool.and_false,
                Bool.or_true, Bool.true_or, Bool.or_false, Bool.false_or, Bool.not_or]

theorem normalizeKeywords_eq_spec (ks : List String) :
    normalizeKeywords ks = specNormalizeKeywords ks := by
  rw [normalizeKeywords, normalizeKeywordsAux_eq ks [], specNormalizeKeywords]
  refine congrArg dedupCaseInsensitive ?_
  refine List.filter_congr ?_
  intro a _
  cases h1 : (a == "") <;> simp [h1, List.contains]

theorem buildCategory_keywords (input : CategoryInput) (existing : List Category)
    (idOpt : Option String) (now : ℚ) (freshId : String) (c : Category)
    (h : (buildCategory input existing idOpt now freshId).category = some c) :
    c.keywords = normalizeKeywords input.keywords := by
  simp only [buildCategory] at h
  split at h
  · cases h
  · split at h
    · cases h
    · split at h
      · cases h
      · split at h
        · cases h
        · split at h
          · cases h
          · split at h
            · cases h
            · cases h
              rfl

theorem addCategory_fst (input : CategoryInput) (cats : List Category) (now : ℚ)
    (freshId : String) :
    (addCategory input cats now freshId).1 = buildCategory input cats none now freshId := by
  rcases hb : buildCategory input cats none now freshId with ⟨oc, e⟩
  cases oc <;> simp [addCategory, hb]

theorem updateCategory_fst (id2 : String) (input : CategoryInput)
    (cats : List Category) (now : ℚ) (found : Category)
    (hf : cats.find? (fun e => e.id == id2) = some found) :
    (updateCategory id2 input cats now).1 = buildCategory input cats (some id2) now "" := by
  rcases hb : buildCategory input cats (some id2) now "" with ⟨oc, e⟩
  cases oc <;> simp [updateCategory, hf, hb]

/-- C9: every keyword list stored by a successful `addCategory` or
`updateCategory` equals the input list after trimming each entry, dropping
entries empty after trim, and removing case-insensitive duplicates while
keeping original casing and first-seen order. -/
theorem stored_keywords_normalized (input : CategoryInput) (cats : List Category)
    (now : ℚ) (freshId id2 : String) (c : Category) :
    ((addCategory input cats now freshId).1.category = some c →
      c.keywords = specNormalizeKeywords input.keywords) ∧
    ((updateCategory id2 input cats now).1.category = some c →
      c.keywords = specNormalizeKeywords input.keywords) := by
  constructor
  · intro h
    rw [addCategory_fst] at h
    rw [buildCategory_keywords input cats none now freshId c h,
      normalizeKeywords_eq_spec]
  · intro h
    rcases hfind : cats.find? (fun e => e.id == id2) with _ | found
    · simp only [updateCategory, hfind] at h
      cases h
    · rw [updateCategory_fst id2 input cats now found hfind] at h
      rw [buildCategory_keywords input cats (some id2) now "" c h,
        normalizeKeywords_eq_spec]

/-- C9 witness: keywords `["test","TEST","Test","unique"]` are stored as
exactly `["test","unique"]`. -/
theorem stored_keywords_normalized_witness :
    (addCategory ⟨"Cat", "#aabbcc", ["test", "TEST", "Test", "unique"], none⟩ [] 0
      "custom-1").1.category =
      some ⟨"custom-1", "Cat", "#aabbcc", ["test", "unique"], .any, 0, 0, false⟩ ∧
    (⟨"custom-1", "Cat", "#aabbcc", ["test", "unique"], .any, 0, 0, false⟩ :
        Category).keywords =
      specNormalizeKeywords ["test", "TEST", "Test", "unique"] :=
  ⟨by decide,
    (stored_keywords_normalized ⟨"Cat", "#aabbcc", ["test", "TEST", "Test", "unique"], none⟩
      [] 0 "custom-1" "x"
      ⟨"custom-1", "Cat", "#aabbcc", ["test", "unique"], .any, 0, 0, false⟩).1 (by decide)⟩

/-! ## C8 — sanitized category sets -/

theorem bool_eq_false {b : Bool} (h : ¬ b = true) : b = false := by
  cases b
  · rfl
  · exact absurd rfl h

theorem upsertCategory_mem (k : String) (v : Category) (m : List (String × Category))
    (p : String × Category) (hp : p ∈ upsertCategory k v m) : p = (k, v) ∨ p ∈ m := by
  induction m with
  | nil => simpa [upsertCategory] using hp
  | cons q rest ih =>
    rcases q with ⟨k2, v2⟩
    by_cases hb : (k2 == k) = true
    · rw [upsertCategory, if_pos hb] at hp
      rcases List.mem_cons.mp hp with hp1 | hp1
      · left
        rw [hp1, eq_of_beq hb]
      · right
        exact List.mem_cons_of_mem _ hp1
    · rw [upsertCategory, if_neg hb] at hp
      rcases List.mem_cons.mp hp with hp1 | hp1
      · right
        rw [hp1]
        exact List.mem_cons_self _ _
      · rcases ih hp1 with hp2 | hp2
        · exact Or.inl hp2
        · exact Or.inr (List.mem_cons_of_mem _ hp2)

theorem upsertCategory_keys_mem (k : String) (v : Category) (m : List (String × Category))
    (a : String) (ha : a ∈ (upsertCategory k v m).map Prod.fst) :
    a = k ∨ a ∈ m.map Prod.fst := by
  obtain ⟨p, hp, hpa⟩ := List.mem_map.mp ha
  rcases upsertCategory_mem k v m p hp with h | h
  · left
    rw [← hpa, h]
  · right
    exact List.mem_map.mpr ⟨p, h, hpa⟩

theorem upsertCategory_keys_nodup (k : String) (v : Category)
    (m : List (String × Category)) (h : (m.map Prod.fst).Nodup) :
    ((upsertCategory k v m).map Prod.fst).Nodup := by
  induction m with
  | nil => simp [upsertCategory]
  | cons q rest ih =>
    rcases q with ⟨k2, v2⟩
    simp only [List.map_cons, List.nodup_cons] at h
    obtain ⟨hk2, hrest⟩ := h
    by_cases hb : (k2 == k) = true
    · rw [upsertCategory, if_pos hb]
      simp only [List.map_cons, List.nodup_cons]
      exact ⟨hk2, hrest⟩
    · rw [upsertCategory, if_neg hb]
      simp only [List.map_cons, List.nodup_cons]
      refine ⟨?_, ih hrest⟩
      intro hmem
      rcases upsertCategory_keys_mem k v rest k2 hmem with h | h
      · exact absurd (by rw [h]) (ne_of_beq_false (bool_eq_false hb))
      · exact hk2 h

/-- The invariant each entry of the label-dedup map satisfies. -/
def goodPair (p : String × Category) : Prop :=
  p.1 = jsToLower p.2.label ∧ ¬ p.2.label = "" ∧ isValidColor p.2.color = true

theorem sanitizeStep_preserves (now : ℚ) (m : List (String × Category))
    (entry : RawCategory) (h1 : (m.map Prod.fst).Nodup) (h2 : ∀ p ∈ m, goodPair p) :
    ((sanitizeStep now m entry).map Prod.fst).Nodup ∧
    ∀ p ∈ sanitizeStep now m entry, goodPair p := by
  unfold sanitizeStep
  by_cases hid : (entry.id == "") = true
  · simp only [hid, if_true]
    exact ⟨h1, h2⟩
  · simp only [bool_eq_false hid, Bool.false_eq_true, if_false]
    by_cases hg : (normalizeLabel entry.label == "" || !isValidColor entry.color) = true
    · simp only [hg, if_true]
      exact ⟨h1, h2⟩
    · have hg2 := bool_eq_false hg
      have hl : (normalizeLabel entry.label == "") = false := by
        cases h : (normalizeLabel entry.label == "")
        · rfl
        · rw [h, Bool.true_or] at hg2
          cases hg2
      have hc : isValidColor entry.color = true := by
        cases h : isValidColor entry.color
        · rw [h] at hg2
          simp at hg2
        · rfl
      simp only [hg2, Bool.false_eq_true, if_false]
      have hcand : ∀ ca ua md df,
          goodPair (jsToLower (normalizeLabel entry.label),
            ⟨entry.id, normalizeLabel entry.label, entry.color,
              normalizeKeywords entry.keywords, md, ca, ua, df⟩) :=
        fun ca ua md df => ⟨rfl, ne_of_beq_false hl, hc⟩
      rcases hlk : mapLookup (jsToLower (normalizeLabel entry.label)) m with _ | existing
      · simp only [hlk]
        refine ⟨upsertCategory_keys_nodup _ _ _ h1, ?_⟩
        intro p hp
        rcases upsertCategory_mem _ _ _ p hp with h | h
        · rw [h]
          exact hcand _ _ _ _
        · exact h2 p h
      · simp only [hlk]
        by_cases hu : existing.updatedAt <
            (match entry.updatedAt with
              | JSNum.num q => q
              | _ => match entry.createdAt with | JSNum.num q => q | _ => now)
        · rw [if_pos hu]
          refine ⟨upsertCategory_keys_nodup _ _ _ h1, ?_⟩
          intro p hp
          rcases upsertCategory_mem _ _ _ p hp with h | h
          · rw [h]
            exact hcand _ _ _ _
          · exact h2 p h
        · rw [if_neg hu]
          exact ⟨h1, h2⟩

theorem sanitizeFold_invariant (now : ℚ) (cats : List RawCategory)
    (m : List (String × Category)) (h1 : (m.map Prod.fst).Nodup)
    (h2 : ∀ p ∈ m, goodPair p) :
    ((cats.foldl (sanitizeStep now) m).map Prod.fst).Nodup ∧
    ∀ p ∈ cats.foldl (sanitizeStep now) m, goodPair p := by
  induction cats generalizing m with
  | nil => exact ⟨h1, h2⟩
  | cons e rest ih =>
    have h := sanitizeStep_preserves now m e h1 h2
    simpa only [List.foldl_cons] using ih (sanitizeStep now m e) h.1 h.2

/-- C8 counterexample: a raw category with a 33-character label and no
keywords passes `sanitizeCategories` untouched, so the sanitized set does
NOT satisfy the local-creation constraints (label of at most 32 characters,
at least one keyword). -/
theorem sanitize_violates_local_constraints :
    ∃ c ∈ sanitizeCategories
      [⟨"x", "aaaaaaaaaaaaaaaaaaaaaaaaaaaaaaaaa", "#aabbcc", [], none,
        .num 0, .num 0, none⟩] 0,
      ¬ (c.label.length ≤ 32 ∧ 1 ≤ c.keywords.length) := by
  decide

/-- C8 amended: a category set sanitized from arbitrary input satisfies the
constraints `sanitizeCategories` actually enforces — every stored category
has a non-empty (trimmed) label and a valid `#RRGGBB` color, and labels are
unique case-insensitively — but not the stricter local-creation constraints
(32-character label bound, at least one keyword), which are not checked on
the sanitization path. -/
theorem sanitized_categories_invariants (cats : List RawCategory) (now : ℚ) :
    (∀ c ∈ sanitizeCategories cats now, ¬ c.label = "" ∧ isValidColor c.color = true) ∧
    (sanitizeCategories cats now).Pairwise
      (fun a b => ¬ jsToLower a.label = jsToLower b.label) := by
  obtain ⟨hnodup, hgood⟩ :=
    sanitizeFold_invariant now cats [] (by simp) (by intro p hp; cases hp)
  constructor
  · intro c hc
    obtain ⟨p, hp, hpc⟩ := List.mem_map.mp hc
    obtain ⟨-, hlab, hcol⟩ := hgood p hp
    rw [← hpc]
    exact ⟨hlab, hcol⟩
  · rw [sanitizeCategories]
    rw [List.pairwise_map]
    have hkeys : List.Pairwise (fun p q : String × Category => p.1 ≠ q.1)
        (cats.foldl (sanitizeStep now) []) := List.pairwise_map.mp hnodup
    refine List.Pairwise.imp_of_mem ?_ hkeys
    intro p q hp hq hne heq
    exact hne ((hgood p hp).1.trans (heq.trans (hgood q hq).1.symm))

/-- C8 amended witness: a concrete sanitized category keeps a non-empty label
and a valid color. -/
theorem sanitized_categories_invariants_witness :
    ¬ (⟨"x", "A", "#aabbcc", ["k"], .any, 5, 5, false⟩ : Category).label = "" ∧
    isValidColor (⟨"x", "A", "#aabbcc", ["k"], .any, 5, 5, false⟩ : Category).color = true :=
  (sanitized_categories_invariants
    [⟨"x", "A", "#aabbcc", ["k"], none, .num 5, .num 5, none⟩] 0).1
    ⟨"x", "A", "#aabbcc", ["k"], .any, 5, 5, false⟩ (by decide)
